import Mathlib

/-
Verification of the clavis-js packet transport against its specification.

The TypeScript source is embedded shallowly:
- byte buffers (`Uint8Array`, `number[]`) become `List Nat` with each entry a
  byte value 0..255 (write helpers mask with `% 256` exactly where the source
  masks with `& 0xff`);
- JS `number` values that hold integers become `Nat` or `Int` (with explicit
  `% 2^32` wrapping where the source relies on JS 32-bit bitwise coercion);
- functions that `throw` become `Except ClavisError`;
- external library calls (the @noble crypto primitives, which are not part of
  this repository) become explicit function parameters of the embedded
  operations, so every theorem quantifies over their behaviour.
-/

namespace Clavis

/-- Cryptographic errors, from src/error.ts (`CryptoError` and its static
constructors).  The model keeps the distinguishing data of each constructor. -/
inductive CryptoError where
  | operationFailure (operation : String) (details : String)
  | authenticationFailure (message : String)
  | invalidKeyMaterial (message : String)
  | keyDerivationFailure (message : String)
deriving DecidableEq

/-- Message format and processing errors, from src/error.ts (`MessageError`).
`messageTooLarge` keeps the offending size and the configured maximum. -/
inductive MessageError where
  | messageTooLarge (size : Nat) (maxSize : Nat)
  | serializationFailed (message : String)
  | deserializationFailed (message : String)
  | invalidFormat (message : String)
deriving DecidableEq

/-- Top-level error type, from src/error.ts (`ClavisError`).  The
`channelClosed` case stands for the stream adapter failing to deliver the
requested bytes (connection closed or reset before the read completed). -/
inductive ClavisError where
  | crypto (e : CryptoError)
  | message (e : MessageError)
  | channelClosed
deriving DecidableEq

/-- `ClavisError.deserializationFailed` from src/error.ts: wraps the detail
string in a `MessageError`.  The model drops the interpolated numeric values
from the source template strings; the static text is kept. -/
def ClavisError.deserializationFailed (details : String) : ClavisError :=
  ClavisError.message (MessageError.deserializationFailed details)

/-- Result of a read operation, from src/bincode.ts (`ReadResult<T>`). -/
structure ReadResult (α : Type) where
  value : α
  bytesRead : Nat
deriving DecidableEq

/-- `writeU8` from src/bincode.ts: pushes `n & 0xff`. -/
def writeU8 (buffer : List Nat) (n : Nat) : List Nat :=
  buffer ++ [n % 256]

/-- `writeU32` from src/bincode.ts: pushes `n & 0xff`, `(n >> 8) & 0xff`,
`(n >> 16) & 0xff`, `(n >> 24) & 0xff`.  JS bitwise operators coerce the
operand to a 32-bit two-complement integer first, so for every integer `n`
the four pushed bytes are the little-endian bytes of `n mod 2^32`; the model
takes `n : Int` to cover the negative inputs that `writeDateTime` can pass. -/
def writeU32 (buffer : List Nat) (n : Int) : List Nat :=
  let m : Nat := (n % 4294967296).toNat
  buffer ++ [m % 256, m / 256 % 256, m / 65536 % 256, m / 16777216 % 256]

/-- `writeVarintU32` from src/bincode.ts: values below 251 are one byte,
otherwise the marker byte 0xFB (= 251) followed by the 4-byte LE u32. -/
def writeVarintU32 (buffer : List Nat) (n : Nat) : List Nat :=
  if n < 251 then
    buffer ++ [n]
  else
    writeU32 (buffer ++ [251]) (n : Int)

/-- `writeI64` from src/bincode.ts: converts a negative value to its 64-bit
two-complement representative, then writes the low and high 32-bit halves
little-endian (BigInt `value & 0xffffffffn` and `(value >> 32n) & 0xffffffffn`,
which for the non-negative `value` are `value mod 2^32` and
`(value / 2^32) mod 2^32`). -/
def writeI64 (buffer : List Nat) (n : Int) : List Nat :=
  let value : Int := if n < 0 then 18446744073709551616 + n else n
  let low : Int := value % 4294967296
  let high : Int := (value / 4294967296) % 4294967296
  writeU32 (writeU32 buffer low) high

/-- `writeDateTime` from src/bincode.ts: `msSinceEpoch` is `date.getTime()`.
`secs` is `Math.floor(ms / 1000)`, which is floored division.  `nsecs` is
`(ms % 1000) * 1_000_000`, and the JS `%` operator is the TRUNCATED remainder
(`Int.tmod`), which is negative for negative `ms` that is not a multiple of
1000; `writeU32` then wraps that negative value modulo 2^32. -/
def writeDateTime (buffer : List Nat) (msSinceEpoch : Int) : List Nat :=
  let secs : Int := Int.fdiv msSinceEpoch 1000
  let nsecs : Int := (Int.tmod msSinceEpoch 1000) * 1000000
  writeU32 (writeI64 buffer secs) nsecs

/-- `readU8` from src/bincode.ts. -/
def readU8 (data : List Nat) (offset : Nat) : Except ClavisError (ReadResult Nat) :=
  if offset ≥ data.length then
    Except.error (ClavisError.deserializationFailed ("Unexpected end of data reading u8"))
  else
    Except.ok ⟨data.getD offset 0, 1⟩

/-- `readU32` from src/bincode.ts: the source ORs the four bytes shifted into
disjoint bit ranges and applies `>>> 0`; for byte values below 256 that equals
this sum, which is already non-negative and below 2^32. -/
def readU32 (data : List Nat) (offset : Nat) : Except ClavisError (ReadResult Nat) :=
  if offset + 4 > data.length then
    Except.error (ClavisError.deserializationFailed ("Unexpected end of data reading u32"))
  else
    Except.ok ⟨data.getD offset 0 + data.getD (offset + 1) 0 * 256 +
      data.getD (offset + 2) 0 * 65536 + data.getD (offset + 3) 0 * 16777216, 4⟩

/-- `readU64` from src/bincode.ts: low and high 32-bit halves, combined as
`(high << 32n) | low` on BigInt, i.e. `high * 2^32 + low`. -/
def readU64 (data : List Nat) (offset : Nat) : Except ClavisError (ReadResult Nat) :=
  if offset + 8 > data.length then
    Except.error (ClavisError.deserializationFailed ("Unexpected end of data reading u64"))
  else
    let low : Nat := data.getD offset 0 + data.getD (offset + 1) 0 * 256 +
      data.getD (offset + 2) 0 * 65536 + data.getD (offset + 3) 0 * 16777216
    let high : Nat := data.getD (offset + 4) 0 + data.getD (offset + 5) 0 * 256 +
      data.getD (offset + 6) 0 * 65536 + data.getD (offset + 7) 0 * 16777216
    Except.ok ⟨high * 4294967296 + low, 8⟩

/-- `readVarintU32` from src/bincode.ts: a first byte below 251 is the value;
the marker 0xFB (= 251) is followed by a 4-byte LE u32; any other first byte
(252..255) is an invalid marker. -/
def readVarintU32 (data : List Nat) (offset : Nat) : Except ClavisError (ReadResult Nat) :=
  if offset ≥ data.length then
    Except.error (ClavisError.deserializationFailed ("Unexpected end of data reading varint"))
  else
    let first := data.getD offset 0
    if first < 251 then
      Except.ok ⟨first, 1⟩
    else if first = 251 then
      match readU32 data (offset + 1) with
      | Except.error e => Except.error e
      | Except.ok result => Except.ok ⟨result.value, 1 + result.bytesRead⟩
    else
      Except.error (ClavisError.deserializationFailed ("Invalid varint marker"))

/-- True for a UTF-8 continuation byte (0x80..0xBF). -/
def isContinuationByte (b : Nat) : Bool :=
  decide (128 ≤ b ∧ b ≤ 191)

/-- The Unicode replacement character U+FFFD emitted by a non-fatal decoder. -/
def replacementChar : Char := Char.ofNat 0xFFFD

/-- WHATWG UTF-8 decoder in its default NON-FATAL mode, as run by
`new TextDecoder().decode(bytes)` in src/bincode.ts `readString`: malformed
input never raises; each maximal invalid subpart is replaced by U+FFFD and
decoding resumes at the offending byte. -/
def utf8DecodeLossy : List Nat → List Char
  | [] => []
  | b :: rest =>
    if b ≤ 127 then
      Char.ofNat b :: utf8DecodeLossy rest
    else if 194 ≤ b ∧ b ≤ 223 then
      match rest with
      | [] => [replacementChar]
      | c1 :: rest1 =>
        if isContinuationByte c1 then
          Char.ofNat ((b - 192) * 64 + (c1 - 128)) :: utf8DecodeLossy rest1
        else
          replacementChar :: utf8DecodeLossy (c1 :: rest1)
    else if 224 ≤ b ∧ b ≤ 239 then
      match rest with
      | [] => [replacementChar]
      | c1 :: rest1 =>
        if (if b = 224 then 160 else 128) ≤ c1 ∧ c1 ≤ (if b = 237 then 159 else 191) then
          match rest1 with
          | [] => [replacementChar]
          | c2 :: rest2 =>
            if isContinuationByte c2 then
              Char.ofNat ((b - 224) * 4096 + (c1 - 128) * 64 + (c2 - 128)) ::
                utf8DecodeLossy rest2
            else
              replacementChar :: utf8DecodeLossy (c2 :: rest2)
        else
          replacementChar :: utf8DecodeLossy (c1 :: rest1)
    else if 240 ≤ b ∧ b ≤ 244 then
      match rest with
      | [] => [replacementChar]
      | c1 :: rest1 =>
        if (if b = 240 then 144 else 128) ≤ c1 ∧ c1 ≤ (if b = 244 then 143 else 191) then
          match rest1 with
          | [] => [replacementChar]
          | c2 :: rest2 =>
            if isContinuationByte c2 then
              match rest2 with
              | [] => [replacementChar]
              | c3 :: rest3 =>
                if isContinuationByte c3 then
                  Char.ofNat ((b - 240) * 262144 + (c1 - 128) * 4096 +
                    (c2 - 128) * 64 + (c3 - 128)) :: utf8DecodeLossy rest3
                else
                  replacementChar :: utf8DecodeLossy (c3 :: rest3)
            else
              replacementChar :: utf8DecodeLossy (c2 :: rest2)
        else
          replacementChar :: utf8DecodeLossy (c1 :: rest1)
    else
      replacementChar :: utf8DecodeLossy rest

/-- `new TextDecoder().decode`: the default utf-8 decoder also strips a
leading byte-order mark EF BB BF before decoding. -/
def textDecode (bytes : List Nat) : String :=
  match bytes with
  | 239 :: 187 :: 191 :: rest => String.mk (utf8DecodeLossy rest)
  | _ => String.mk (utf8DecodeLossy bytes)

/-- UTF-8 validity of a byte sequence, stated from the UTF-8 definition
(RFC 3629 well-formed byte sequences).  Used only to STATE the specification
sentence about invalid UTF-8; the source never computes this predicate. -/
def isValidUtf8 : List Nat → Bool
  | [] => true
  | b :: rest =>
    if b ≤ 127 then
      isValidUtf8 rest
    else if 194 ≤ b ∧ b ≤ 223 then
      match rest with
      | c1 :: rest1 => isContinuationByte c1 && isValidUtf8 rest1
      | [] => false
    else if 224 ≤ b ∧ b ≤ 239 then
      match rest with
      | c1 :: c2 :: rest2 =>
        decide ((if b = 224 then 160 else 128) ≤ c1 ∧ c1 ≤ (if b = 237 then 159 else 191)) &&
          isContinuationByte c2 && isValidUtf8 rest2
      | _ => false
    else if 240 ≤ b ∧ b ≤ 244 then
      match rest with
      | c1 :: c2 :: c3 :: rest3 =>
        decide ((if b = 240 then 144 else 128) ≤ c1 ∧ c1 ≤ (if b = 244 then 143 else 191)) &&
          isContinuationByte c2 && isContinuationByte c3 && isValidUtf8 rest3
      | _ => false
    else
      false

/-- `readString` from src/bincode.ts: u64 LE length prefix, bounds check,
then `data.slice(start, start + length)` decoded by a default (non-fatal)
`TextDecoder`. -/
def readString (data : List Nat) (offset : Nat) : Except ClavisError (ReadResult String) :=
  match readU64 data offset with
  | Except.error e => Except.error e
  | Except.ok lenResult =>
    let length := lenResult.value
    let start := offset + lenResult.bytesRead
    if start + length > data.length then
      Except.error (ClavisError.deserializationFailed ("String length exceeds available data"))
    else
      Except.ok ⟨textDecode ((data.drop start).take length), lenResult.bytesRead + length⟩

/-- `readOptionString` from src/bincode.ts: a zero tag byte yields `none`;
ANY other tag value falls through to reading the string. -/
def readOptionString (data : List Nat) (offset : Nat) :
    Except ClavisError (ReadResult (Option String)) :=
  match readU8 data offset with
  | Except.error e => Except.error e
  | Except.ok discriminant =>
    if discriminant.value = 0 then
      Except.ok ⟨none, 1⟩
    else
      match readString data (offset + 1) with
      | Except.error e => Except.error e
      | Except.ok stringResult => Except.ok ⟨some stringResult.value, 1 + stringResult.bytesRead⟩

/-- `readOptionU32` from src/bincode.ts: a zero tag byte yields `none`;
ANY other tag value falls through to reading the u32. -/
def readOptionU32 (data : List Nat) (offset : Nat) :
    Except ClavisError (ReadResult (Option Nat)) :=
  match readU8 data offset with
  | Except.error e => Except.error e
  | Except.ok discriminant =>
    if discriminant.value = 0 then
      Except.ok ⟨none, 1⟩
    else
      match readU32 data (offset + 1) with
      | Except.error e => Except.error e
      | Except.ok valueResult => Except.ok ⟨some valueResult.value, 1 + valueResult.bytesRead⟩

/-- X25519 key pair, from src/crypto.ts (`X25519KeyPair`). -/
structure X25519KeyPair where
  secret : List Nat
  publicKey : List Nat
deriving DecidableEq

/-- Result of the handshake, from the handshake module (`HandshakeResult`):
32-byte encryption and decryption session keys. -/
structure HandshakeResult where
  encKey : List Nat
  decKey : List Nat
deriving DecidableEq

/-- The external @noble crypto primitives used by src/crypto.ts.  They are not
part of this repository, so the embedding passes them as explicit function
parameters: `getSharedSecret` is `x25519.getSharedSecret`, `sha256` is the
SHA-256 hash, `hmac` is HMAC-SHA-256, and `hkdf` is
`hkdf(sha256, ikm, salt, info, 32)`.  Every theorem below quantifies over
them. -/
structure CryptoPrimitives where
  getSharedSecret : List Nat → List Nat → List Nat
  sha256 : List Nat → List Nat
  hmac : List Nat → List Nat → List Nat
  hkdf : List Nat → List Nat → String → List Nat

/-- `computeSharedSecret` from src/crypto.ts: validates both inputs are
32 bytes, then delegates to the external x25519 implementation. -/
def computeSharedSecret (prims : CryptoPrimitives) (secretKey peerPublicKey : List Nat) :
    Except ClavisError (List Nat) :=
  if secretKey.length ≠ 32 then
    Except.error (ClavisError.crypto (CryptoError.invalidKeyMaterial ("Secret key must be 32 bytes")))
  else if peerPublicKey.length ≠ 32 then
    Except.error (ClavisError.crypto (CryptoError.invalidKeyMaterial ("Public key must be 32 bytes")))
  else
    Except.ok (prims.getSharedSecret secretKey peerPublicKey)

/-- `sha256Hash` from src/crypto.ts: delegates to the external hash. -/
def sha256Hash (prims : CryptoPrimitives) (data : List Nat) : List Nat :=
  prims.sha256 data

/-- `hmacSha256` from src/crypto.ts: delegates to the external HMAC (the
try/catch merely rethrows, so the model is total). -/
def hmacSha256 (prims : CryptoPrimitives) (key data : List Nat) : List Nat :=
  prims.hmac key data

/-- `hkdfExpand` from src/crypto.ts: validates that the shared secret and the
salt are 32 bytes, then derives 32 bytes via the external HKDF-SHA256. -/
def hkdfExpand (prims : CryptoPrimitives) (sharedSecret salt : List Nat) (info : String) :
    Except ClavisError (List Nat) :=
  if sharedSecret.length ≠ 32 then
    Except.error (ClavisError.crypto (CryptoError.invalidKeyMaterial ("Shared secret must be 32 bytes")))
  else if salt.length ≠ 32 then
    Except.error (ClavisError.crypto (CryptoError.invalidKeyMaterial ("Salt must be 32 bytes")))
  else
    Except.ok (prims.hkdf sharedSecret salt info)

/-- The index loop of `compareNonces` from the handshake module: starting at
index `i`, the first position where the local byte exceeds the peer byte gives
`true`, the first position where it is smaller gives `false`, and exhausting
all 32 positions gives `false`. -/
def compareNoncesLoop (localNonce peerNonce : List Nat) (i : Nat) : Bool :=
  if h : i < 32 then
    let localByte := localNonce.getD i 0
    let peerByte := peerNonce.getD i 0
    if localByte > peerByte then true
    else if localByte < peerByte then false
    else compareNoncesLoop localNonce peerNonce (i + 1)
  else false
termination_by 32 - i

/-- `compareNonces` from the handshake module: both nonces must be 32 bytes
(else InvalidKeyMaterial), then lexicographic byte comparison from index 0 to
31; `true` means this peer is the initiator. -/
def compareNonces (localNonce peerNonce : List Nat) : Except ClavisError Bool :=
  if localNonce.length ≠ 32 ∨ peerNonce.length ≠ 32 then
    Except.error (ClavisError.crypto (CryptoError.invalidKeyMaterial ("Nonces must be 32 bytes")))
  else
    Except.ok (compareNoncesLoop localNonce peerNonce 0)

/-- `Uint8Array.prototype.set` writing `src` into `arr` at `offset` (the
source never lets `src` overrun the target). -/
def typedArraySet (arr : List Nat) (src : List Nat) (offset : Nat) : List Nat :=
  arr.take offset ++ src ++ arr.drop (offset + src.length)

/-- `constructTranscript` from the handshake module: a 64-byte buffer holding
the initiator public key at offset 0 and the responder public key at
offset 32. -/
def constructTranscript (initiatorKey responderKey : List Nat) : List Nat :=
  typedArraySet (typedArraySet (List.replicate 64 0) initiatorKey 0) responderKey 32

/-- `constantTimeEquals` from the handshake module: lengths must match, then
the OR-accumulated XOR of all byte pairs must be zero. -/
def constantTimeEquals (a b : List Nat) : Bool :=
  if a.length ≠ b.length then false
  else ((List.zip a b).foldl (fun result p => result ||| (p.1 ^^^ p.2)) 0) == 0

/-- The duplex byte stream seen by the handshake and by `writePacket`:
`pending` holds the byte blocks the peer will deliver to successive `read`
calls, `written` records every block written so far, in order. -/
structure StreamModel where
  pending : List (List Nat)
  written : List (List Nat)
deriving DecidableEq

/-- `stream.write`: appends the block to the write log. -/
def streamWrite (s : StreamModel) (data : List Nat) : StreamModel :=
  { s with written := s.written ++ [data] }

/-- `stream.read(length)`: delivers the next pending block, which must have
exactly the requested length; a missing or short block models the peer
closing the connection before the read completes. -/
def streamRead (s : StreamModel) (length : Nat) :
    Except ClavisError (List Nat × StreamModel) :=
  match s.pending with
  | [] => Except.error ClavisError.channelClosed
  | d :: rest =>
    if d.length = length then Except.ok (d, { s with pending := rest })
    else Except.error ClavisError.channelClosed

/-- Step 5 of `performHandshake`, initiator branch: `encKey` is
HKDF(sharedSecret, transcriptHash, "enc"), `decKey` is HKDF(..., "dec"). -/
def initiatorDeriveKeys (prims : CryptoPrimitives) (sharedSecret transcriptHash : List Nat) :
    Except ClavisError HandshakeResult :=
  match hkdfExpand prims sharedSecret transcriptHash ("enc") with
  | Except.error e => Except.error e
  | Except.ok encKey =>
    match hkdfExpand prims sharedSecret transcriptHash ("dec") with
    | Except.error e => Except.error e
    | Except.ok decKey => Except.ok ⟨encKey, decKey⟩

/-- Step 5 of `performHandshake`, responder branch: the labels are swapped —
`encKey` is HKDF(sharedSecret, transcriptHash, "dec"), `decKey` is
HKDF(..., "enc"). -/
def responderDeriveKeys (prims : CryptoPrimitives) (sharedSecret transcriptHash : List Nat) :
    Except ClavisError HandshakeResult :=
  match hkdfExpand prims sharedSecret transcriptHash ("dec") with
  | Except.error e => Except.error e
  | Except.ok encKey =>
    match hkdfExpand prims sharedSecret transcriptHash ("enc") with
    | Except.error e => Except.error e
    | Except.ok decKey => Except.ok ⟨encKey, decKey⟩

/-- The initiator branch of `performHandshake` (steps 2 to 5): write own
public key, read peer public key, ECDH, transcript with own key first, then
optionally write own MAC, read peer MAC and compare in constant time, and
finally derive the session keys. -/
def performHandshakeInitiator (prims : CryptoPrimitives) (keyPair : X25519KeyPair)
    (psk : Option (List Nat)) (s : StreamModel) :
    Except ClavisError HandshakeResult × StreamModel :=
  let s1 := streamWrite s keyPair.publicKey
  match streamRead s1 32 with
  | Except.error e => (Except.error e, s1)
  | Except.ok (peerPublicKey, s2) =>
    match computeSharedSecret prims keyPair.secret peerPublicKey with
    | Except.error e => (Except.error e, s2)
    | Except.ok sharedSecret =>
      let transcriptData := constructTranscript keyPair.publicKey peerPublicKey
      let transcriptHash := sha256Hash prims transcriptData
      match psk.map (fun p => hmacSha256 prims p transcriptData) with
      | some mac =>
        let s3 := streamWrite s2 mac
        match streamRead s3 32 with
        | Except.error e => (Except.error e, s3)
        | Except.ok (peerMac, s4) =>
          if !(constantTimeEquals mac peerMac) then
            (Except.error (ClavisError.crypto
              (CryptoError.authenticationFailure ("MAC verification failed"))), s4)
          else
            (initiatorDeriveKeys prims sharedSecret transcriptHash, s4)
      | none => (initiatorDeriveKeys prims sharedSecret transcriptHash, s2)

/-- The responder branch of `performHandshake` (steps 2 to 5): read peer
public key, write own public key, ECDH, transcript with the peer (initiator)
key first, then optionally read peer MAC, write own MAC and compare in
constant time, and finally derive the session keys with swapped labels. -/
def performHandshakeResponder (prims : CryptoPrimitives) (keyPair : X25519KeyPair)
    (psk : Option (List Nat)) (s : StreamModel) :
    Except ClavisError HandshakeResult × StreamModel :=
  match streamRead s 32 with
  | Except.error e => (Except.error e, s)
  | Except.ok (peerPublicKey, s1) =>
    let s2 := streamWrite s1 keyPair.publicKey
    match computeSharedSecret prims keyPair.secret peerPublicKey with
    | Except.error e => (Except.error e, s2)
    | Except.ok sharedSecret =>
      let transcriptData := constructTranscript peerPublicKey keyPair.publicKey
      let transcriptHash := sha256Hash prims transcriptData
      match psk.map (fun p => hmacSha256 prims p transcriptData) with
      | some mac =>
        match streamRead s2 32 with
        | Except.error e => (Except.error e, s2)
        | Except.ok (peerMac, s3) =>
          let s4 := streamWrite s3 mac
          if !(constantTimeEquals mac peerMac) then
            (Except.error (ClavisError.crypto
              (CryptoError.authenticationFailure ("MAC verification failed"))), s4)
          else
            (responderDeriveKeys prims sharedSecret transcriptHash, s4)
      | none => (responderDeriveKeys prims sharedSecret transcriptHash, s2)

/-- Step 1 of `performHandshake`: write the local 32-byte nonce, read the
peer nonce, decide the role by `compareNonces`, and continue in the matching
branch.  `localNonce` and `keyPair` stand for the locally generated random
values (`generateRandomBytes(32)` and `generateX25519KeyPair()`). -/
def performHandshakeNonceExchange (prims : CryptoPrimitives) (localNonce : List Nat)
    (keyPair : X25519KeyPair) (psk : Option (List Nat)) (s : StreamModel) :
    Except ClavisError HandshakeResult × StreamModel :=
  let s1 := streamWrite s localNonce
  match streamRead s1 32 with
  | Except.error e => (Except.error e, s1)
  | Except.ok (peerNonce, s2) =>
    match compareNonces localNonce peerNonce with
    | Except.error e => (Except.error e, s2)
    | Except.ok isInitiator =>
      if isInitiator then performHandshakeInitiator prims keyPair psk s2
      else performHandshakeResponder prims keyPair psk s2

/-- `performHandshake` from the handshake module: if a PSK is provided and is
shorter than 16 bytes, fail with InvalidKeyMaterial BEFORE any stream
operation; otherwise run the nonce exchange and the role branch. -/
def performHandshake (prims : CryptoPrimitives) (localNonce : List Nat)
    (keyPair : X25519KeyPair) (psk : Option (List Nat)) (s : StreamModel) :
    Except ClavisError HandshakeResult × StreamModel :=
  match psk with
  | some p =>
    if p.length < 16 then
      (Except.error (ClavisError.crypto
        (CryptoError.invalidKeyMaterial ("Pre-shared key must be at least 16 bytes"))), s)
    else
      performHandshakeNonceExchange prims localNonce keyPair psk s
  | none => performHandshakeNonceExchange prims localNonce keyPair psk s

/-- `adapter.read(length)` of the stream adapter in src (stream module):
buffers incoming chunks and resolves once exactly `length` bytes are
available, so on a flat incoming byte sequence it takes a prefix; fewer
available bytes model a connection that closes first. -/
def adapterRead (wire : List Nat) (length : Nat) :
    Except ClavisError (List Nat × List Nat) :=
  if length ≤ wire.length then Except.ok (wire.take length, wire.drop length)
  else Except.error ClavisError.channelClosed

/-- `adapter.readU32LE`: reads 4 bytes and assembles them little-endian; the
source ORs the shifted bytes and applies `>>> 0`, which for byte values
equals this sum. -/
def adapterReadU32LE (wire : List Nat) : Except ClavisError (Nat × List Nat) :=
  match adapterRead wire 4 with
  | Except.error e => Except.error e
  | Except.ok (bytes, rest) =>
    Except.ok (bytes.getD 0 0 + bytes.getD 1 0 * 256 +
      bytes.getD 2 0 * 65536 + bytes.getD 3 0 * 16777216, rest)

/-- `adapter.writeU32LE(value)`: the four bytes `value & 0xff`,
`(value >> 8) & 0xff`, `(value >> 16) & 0xff`, `(value >> 24) & 0xff`
(callers pass u32-range values). -/
def u32leBytes (value : Nat) : List Nat :=
  [value % 256, value / 256 % 256, value / 65536 % 256, value / 16777216 % 256]

/-- The part of `readPacket` after the length check: read the 24-byte nonce,
read `length` bytes of ciphertext, then decrypt.  `decrypt` stands for
`this.decipher.decrypt` (XChaCha20-Poly1305, external). -/
def readPacketTail (decrypt : List Nat → List Nat → Except ClavisError (List Nat))
    (length : Nat) (wire : List Nat) : Except ClavisError (List Nat) :=
  match adapterRead wire 24 with
  | Except.error e => Except.error e
  | Except.ok (nonce, wire2) =>
    match adapterRead wire2 length with
    | Except.error e => Except.error e
    | Except.ok (ciphertext, _) => decrypt nonce ciphertext

/-- `readPacket` (identical bodies in `EncryptedStream.readPacket` and
`EncryptedReader.readPacket`): read the u32 LE length, reject with
MessageTooLarge if `length <= 0 || length > maxPacketSize` — note the bound
is `maxPacketSize`, NOT `maxPacketSize + 16` — then read nonce and
ciphertext and decrypt. -/
def readPacket (decrypt : List Nat → List Nat → Except ClavisError (List Nat))
    (maxPacketSize : Nat) (wire : List Nat) : Except ClavisError (List Nat) :=
  match adapterReadU32LE wire with
  | Except.error e => Except.error e
  | Except.ok (length, wire1) =>
    if length ≤ 0 ∨ length > maxPacketSize then
      Except.error (ClavisError.message (MessageError.messageTooLarge length maxPacketSize))
    else
      readPacketTail decrypt length wire1

/-- `writePacket` (identical bodies in `EncryptedStream.writePacket` and
`EncryptedWriter.writePacket`): `plaintext` is the already serialized packet
(`packet.serialize()`), `nonce` the freshly generated 24-byte nonce, and
`encrypt` stands for `this.cipher.encrypt` (XChaCha20-Poly1305, external).
Reject with MessageTooLarge if `plaintext.length > maxPacketSize`, before
anything is written; otherwise write the u32 LE ciphertext length, the
nonce, and the ciphertext. -/
def writePacket (encrypt : List Nat → List Nat → List Nat) (maxPacketSize : Nat)
    (plaintext nonce : List Nat) (s : StreamModel) :
    Except ClavisError Unit × StreamModel :=
  if plaintext.length > maxPacketSize then
    (Except.error (ClavisError.message
      (MessageError.messageTooLarge plaintext.length maxPacketSize)), s)
  else
    let ciphertext := encrypt nonce plaintext
    let s1 := streamWrite s (u32leBytes ciphertext.length)
    let s2 := streamWrite s1 nonce
    let s3 := streamWrite s2 ciphertext
    (Except.ok (), s3)

/-- One step of `compareNoncesLoop` below index 32. -/
theorem compareNoncesLoop_step (a b : List Nat) (i : Nat) (h : i < 32) :
    compareNoncesLoop a b i =
      if a.getD i 0 > b.getD i 0 then true
      else if a.getD i 0 < b.getD i 0 then false
      else compareNoncesLoop a b (i + 1) := by
  conv_lhs => rw [compareNoncesLoop]
  rw [dif_pos h]

/-- `compareNoncesLoop` returns false once the index reaches 32. -/
theorem compareNoncesLoop_stop (a b : List Nat) (i : Nat) (h : ¬ i < 32) :
    compareNoncesLoop a b i = false := by
  rw [compareNoncesLoop, dif_neg h]

/-- If the first differing position from `i` on has the local byte greater,
the loop returns true. -/
theorem compareNoncesLoop_gt (a b : List Nat) (j : Nat) (hj : j < 32)
    (hgt : b.getD j 0 < a.getD j 0) :
    ∀ i, i ≤ j → (∀ k, i ≤ k → k < j → a.getD k 0 = b.getD k 0) →
      compareNoncesLoop a b i = true := by
  have H : ∀ n i, j - i = n → i ≤ j →
      (∀ k, i ≤ k → k < j → a.getD k 0 = b.getD k 0) →
      compareNoncesLoop a b i = true := by
    intro n
    induction n with
    | zero =>
      intro i hn hij heq
      have hi : i = j := by omega
      subst hi
      rw [compareNoncesLoop_step a b i hj, if_pos hgt]
    | succ n ih =>
      intro i hn hij heq
      have hi : i < j := by omega
      rw [compareNoncesLoop_step a b i (by omega)]
      have heqi : a.getD i 0 = b.getD i 0 := heq i le_rfl hi
      rw [heqi, if_neg (lt_irrefl _), if_neg (lt_irrefl _)]
      exact ih (i + 1) (by omega) (by omega) (fun k hk1 hk2 => heq k (by omega) hk2)
  exact fun i hij heq => H (j - i) i rfl hij heq

/-- If the first differing position from `i` on has the local byte smaller,
the loop returns false. -/
theorem compareNoncesLoop_lt (a b : List Nat) (j : Nat) (hj : j < 32)
    (hlt : a.getD j 0 < b.getD j 0) :
    ∀ i, i ≤ j → (∀ k, i ≤ k → k < j → a.getD k 0 = b.getD k 0) →
      compareNoncesLoop a b i = false := by
  have H : ∀ n i, j - i = n → i ≤ j →
      (∀ k, i ≤ k → k < j → a.getD k 0 = b.getD k 0) →
      compareNoncesLoop a b i = false := by
    intro n
    induction n with
    | zero =>
      intro i hn hij heq
      have hi : i = j := by omega
      subst hi
      rw [compareNoncesLoop_step a b i hj, if_neg (by omega), if_pos hlt]
    | succ n ih =>
      intro i hn hij heq
      have hi : i < j := by omega
      rw [compareNoncesLoop_step a b i (by omega)]
      have heqi : a.getD i 0 = b.getD i 0 := heq i le_rfl hi
      rw [heqi, if_neg (lt_irrefl _), if_neg (lt_irrefl _)]
      exact ih (i + 1) (by omega) (by omega) (fun k hk1 hk2 => heq k (by omega) hk2)
  exact fun i hij heq => H (j - i) i rfl hij heq

/-- On byte-wise equal inputs the loop returns false. -/
theorem compareNoncesLoop_self (a b : List Nat)
    (heq : ∀ k, k < 32 → a.getD k 0 = b.getD k 0) :
    ∀ i, compareNoncesLoop a b i = false := by
  have H : ∀ n i, 32 - i = n → compareNoncesLoop a b i = false := by
    intro n
    induction n with
    | zero =>
      intro i hn
      exact compareNoncesLoop_stop a b i (by omega)
    | succ n ih =>
      intro i hn
      rw [compareNoncesLoop_step a b i (by omega)]
      rw [heq i (by omega), if_neg (lt_irrefl _), if_neg (lt_irrefl _)]
      exact ih (i + 1) (by omega)
  exact fun i => H (32 - i) i rfl

/-- Swapping the arguments of the loop negates the result, provided some
position at or after `i` and below 32 differs. -/
theorem compareNoncesLoop_swap (a b : List Nat) (j : Nat) (hj : j < 32)
    (hne : a.getD j 0 ≠ b.getD j 0) :
    ∀ i, i ≤ j → compareNoncesLoop b a i = !compareNoncesLoop a b i := by
  have H : ∀ n i, j - i = n → i ≤ j →
      compareNoncesLoop b a i = !compareNoncesLoop a b i := by
    intro n
    induction n with
    | zero =>
      intro i hn hij
      have hi : i = j := by omega
      subst hi
      rw [compareNoncesLoop_step a b i hj, compareNoncesLoop_step b a i hj]
      rcases Nat.lt_trichotomy (a.getD i 0) (b.getD i 0) with hlt | heq | hgt
      · rw [if_pos hlt, if_neg (by omega), if_pos hlt]; rfl
      · exact absurd heq hne
      · rw [if_neg (by omega), if_pos hgt, if_pos hgt]; rfl
    | succ n ih =>
      intro i hn hij
      have hi : i < j := by omega
      rw [compareNoncesLoop_step a b i (by omega), compareNoncesLoop_step b a i (by omega)]
      rcases Nat.lt_trichotomy (a.getD i 0) (b.getD i 0) with hlt | heq | hgt
      · rw [if_pos hlt, if_neg (by omega), if_pos hlt]; rfl
      · rw [heq, if_neg (lt_irrefl _), if_neg (lt_irrefl _), if_neg (lt_irrefl _),
          if_neg (lt_irrefl _)]
        exact ih (i + 1) (by omega) (by omega)
      · rw [if_neg (by omega), if_pos hgt, if_pos hgt]; rfl
  exact fun i hij => H (j - i) i rfl hij

/-- Two distinct 32-byte lists differ at some index below 32. -/
theorem length32_ne_exists_diff (a b : List Nat) (ha : a.length = 32) (hb : b.length = 32)
    (hne : a ≠ b) : ∃ j, j < 32 ∧ a.getD j 0 ≠ b.getD j 0 := by
  by_contra hcon
  push_neg at hcon
  apply hne
  apply List.ext_getElem (by omega)
  intro i h1 h2
  have := hcon i (by omega)
  rwa [List.getD_eq_getElem a 0 h1, List.getD_eq_getElem b 0 h2] at this

/-- `adapter.readU32LE` decodes the four bytes produced by
`adapter.writeU32LE` back to the value and leaves the remaining wire. -/
theorem adapterReadU32LE_u32leBytes (length : Nat) (rest : List Nat)
    (h : length < 4294967296) :
    adapterReadU32LE (u32leBytes length ++ rest) = Except.ok (length, rest) := by
  have hread : adapterRead (u32leBytes length ++ rest) 4 =
      Except.ok (u32leBytes length, rest) := by
    rw [adapterRead, if_pos (by simp [u32leBytes])]
    simp [u32leBytes, List.take, List.drop]
  rw [adapterReadU32LE, hread]
  dsimp only
  have hval : (u32leBytes length).getD 0 0 + (u32leBytes length).getD 1 0 * 256 +
      (u32leBytes length).getD 2 0 * 65536 + (u32leBytes length).getD 3 0 * 16777216 =
      length := by
    simp only [u32leBytes, List.getD, List.get?, Option.getD_some]
    omega
  rw [hval]

/-- C4: `writeVarintU32` encodes every u32 value in 0..=250 as exactly one byte
equal to the value, and every value at least 251 as the marker byte 0xFB (= 251)
followed by the value as a 4-byte little-endian u32; encoding 5 yields the single
byte 0x05 and encoding 300 yields 0xFB, 0x2C, 0x01, 0x00, 0x00; and
`readVarintU32` decodes both forms back to the original value. -/
theorem writeVarintU32_forms_and_roundtrip (n : Nat) (h : n < 4294967296) :
    (n ≤ 250 → writeVarintU32 [] n = [n]) ∧
    (251 ≤ n → writeVarintU32 [] n =
      [251, n % 256, n / 256 % 256, n / 65536 % 256, n / 16777216 % 256]) ∧
    writeVarintU32 [] 5 = [5] ∧
    writeVarintU32 [] 300 = [251, 44, 1, 0, 0] ∧
    readVarintU32 (writeVarintU32 [] n) 0 =
      Except.ok ⟨n, (writeVarintU32 [] n).length⟩ := by
  have hbytes : 251 ≤ n → writeVarintU32 [] n =
      [251, n % 256, n / 256 % 256, n / 65536 % 256, n / 16777216 % 256] := by
    intro hge
    rw [writeVarintU32, if_neg (by omega)]
    simp only [writeU32, List.nil_append, List.cons_append]
    have hm : (((n : Nat) : Int) % 4294967296).toNat = n := by omega
    rw [hm]
  refine ⟨fun hle => by rw [writeVarintU32, if_pos (by omega)]; simp, hbytes, rfl, rfl, ?_⟩
  by_cases hlt : n < 251
  · rw [writeVarintU32, if_pos hlt]
    simp [readVarintU32, List.getD, hlt]
  · rw [hbytes (by omega)]
    simp [readVarintU32, readU32, List.getD]
    omega

/-- C4 witness: the theorem instantiated at the concrete value 300. -/
theorem writeVarintU32_forms_and_roundtrip_witness :
    300 < 4294967296 ∧
    ((300 ≤ 250 → writeVarintU32 [] 300 = [300]) ∧
     (251 ≤ 300 → writeVarintU32 [] 300 =
       [251, 300 % 256, 300 / 256 % 256, 300 / 65536 % 256, 300 / 16777216 % 256]) ∧
     writeVarintU32 [] 5 = [5] ∧
     writeVarintU32 [] 300 = [251, 44, 1, 0, 0] ∧
     readVarintU32 (writeVarintU32 [] 300) 0 =
       Except.ok ⟨300, (writeVarintU32 [] 300).length⟩) :=
  ⟨by norm_num, writeVarintU32_forms_and_roundtrip 300 (by norm_num)⟩

/-- C5: the claim states that `writeDateTime` encodes
`nsecs = (ms mod 1000) * 1_000_000` with FLOORED modulus so that
`0 ≤ nsecs < 1_000_000_000` for every date, including negative millisecond
timestamps.  The code violates this: at `ms = -1` (one millisecond before the
Unix epoch) the JS truncated `%` yields `-1`, so `nsecs = -1_000_000`, which
`writeU32` wraps to `4_293_967_296 ≥ 1_000_000_000`.  The floored modulus the
claim (and the code comment `0-999,999,999`) prescribe would give
`999 * 1_000_000 = 999_000_000`.  The `secs` field is the floored quotient
`-1`, so the encoded pair does not even denote the original instant. -/
theorem writeDateTime_negative_ms_nsecs_out_of_range :
    writeDateTime [] (-1) =
      [255, 255, 255, 255, 255, 255, 255, 255, 192, 189, 240, 255] ∧
    readU32 (writeDateTime [] (-1)) 8 = Except.ok ⟨4293967296, 4⟩ ∧
    1000000000 ≤ 4293967296 ∧
    Int.fmod (-1) 1000 * 1000000 = 999000000 ∧
    (999000000 : Int) < 1000000000 :=
  ⟨rfl, rfl, by norm_num, by decide, by norm_num⟩

/-- C6 counterexample: the tag byte 2 is neither 0 nor 1, yet `readOptionU32`
does not fail with DeserializationError; it treats the tag as present and
returns the following u32. -/
theorem readOptionU32_accepts_tag_two :
    (2 ≠ 0 ∧ 2 ≠ 1) ∧
    readOptionU32 [2, 5, 0, 0, 0] 0 = Except.ok ⟨some 5, 5⟩ :=
  ⟨by decide, rfl⟩

/-- C6 (amended): reading an Option value treats the tag byte 0 as absent and
ANY nonzero tag byte (not just 1) as present followed by the value; an
out-of-range tag never raises DeserializationError by itself — errors arise
only from reading the tag or the value past the end of the data. -/
theorem readOption_tag_zero_absent_nonzero_present (data : List Nat) (offset : Nat)
    (h : offset < data.length) :
    (data.getD offset 0 = 0 →
       readOptionU32 data offset = Except.ok ⟨none, 1⟩ ∧
       readOptionString data offset = Except.ok ⟨none, 1⟩) ∧
    (data.getD offset 0 ≠ 0 →
       (∀ r, readU32 data (offset + 1) = Except.ok r →
          readOptionU32 data offset = Except.ok ⟨some r.value, 1 + r.bytesRead⟩) ∧
       (∀ e, readU32 data (offset + 1) = Except.error e →
          readOptionU32 data offset = Except.error e) ∧
       (∀ r, readString data (offset + 1) = Except.ok r →
          readOptionString data offset = Except.ok ⟨some r.value, 1 + r.bytesRead⟩) ∧
       (∀ e, readString data (offset + 1) = Except.error e →
          readOptionString data offset = Except.error e)) := by
  have h8 : readU8 data offset = Except.ok ⟨data.getD offset 0, 1⟩ := by
    rw [readU8, if_neg (by omega)]
  constructor
  · intro h0
    constructor
    · rw [readOptionU32, h8]; dsimp only; rw [if_pos h0]
    · rw [readOptionString, h8]; dsimp only; rw [if_pos h0]
  · intro h0
    refine ⟨fun r hr => ?_, fun e he => ?_, fun r hr => ?_, fun e he => ?_⟩
    · rw [readOptionU32, h8]; dsimp only; rw [if_neg h0, hr]
    · rw [readOptionU32, h8]; dsimp only; rw [if_neg h0, he]
    · rw [readOptionString, h8]; dsimp only; rw [if_neg h0, hr]
    · rw [readOptionString, h8]; dsimp only; rw [if_neg h0, he]

/-- C6 witness: the amended theorem instantiated at tag byte 2 with a u32 and
a (empty) string payload. -/
theorem readOption_tag_zero_absent_nonzero_present_witness :
    (0 : Nat) < ([2, 5, 0, 0, 0] : List Nat).length ∧
    (([2, 5, 0, 0, 0] : List Nat).getD 0 0 = 0 →
       readOptionU32 [2, 5, 0, 0, 0] 0 = Except.ok ⟨none, 1⟩ ∧
       readOptionString [2, 5, 0, 0, 0] 0 = Except.ok ⟨none, 1⟩) ∧
    (([2, 5, 0, 0, 0] : List Nat).getD 0 0 ≠ 0 →
       (∀ r, readU32 [2, 5, 0, 0, 0] (0 + 1) = Except.ok r →
          readOptionU32 [2, 5, 0, 0, 0] 0 = Except.ok ⟨some r.value, 1 + r.bytesRead⟩) ∧
       (∀ e, readU32 [2, 5, 0, 0, 0] (0 + 1) = Except.error e →
          readOptionU32 [2, 5, 0, 0, 0] 0 = Except.error e) ∧
       (∀ r, readString [2, 5, 0, 0, 0] (0 + 1) = Except.ok r →
          readOptionString [2, 5, 0, 0, 0] 0 = Except.ok ⟨some r.value, 1 + r.bytesRead⟩) ∧
       (∀ e, readString [2, 5, 0, 0, 0] (0 + 1) = Except.error e →
          readOptionString [2, 5, 0, 0, 0] 0 = Except.error e)) :=
  ⟨by decide, (readOption_tag_zero_absent_nonzero_present [2, 5, 0, 0, 0] 0 (by decide)).1,
    (readOption_tag_zero_absent_nonzero_present [2, 5, 0, 0, 0] 0 (by decide)).2⟩

/-- C7 counterexample: the single byte 0xFF is not valid UTF-8, yet `readString`
on the length-prefixed input succeeds (the default TextDecoder replaces the
invalid byte with U+FFFD instead of throwing). -/
theorem readString_accepts_invalid_utf8 :
    isValidUtf8 [255] = false ∧
    readString [1, 0, 0, 0, 0, 0, 0, 0, 255] 0 =
      Except.ok ⟨String.mk [replacementChar], 9⟩ :=
  ⟨rfl, rfl⟩

/-- C7 (amended): `readString` checks bounds only — whenever the declared
length fits in the remaining data it succeeds, decoding the bytes lossily
(invalid UTF-8 sequences become U+FFFD) rather than failing; it fails with
DeserializationError exactly when the declared length exceeds the available
data (or the 8-byte length prefix itself is truncated). -/
theorem readString_bounds_only_no_utf8_validation (data : List Nat) (offset len : Nat)
    (h : readU64 data offset = Except.ok ⟨len, 8⟩) :
    (offset + 8 + len ≤ data.length →
       readString data offset =
         Except.ok ⟨textDecode ((data.drop (offset + 8)).take len), 8 + len⟩) ∧
    (data.length < offset + 8 + len →
       readString data offset =
         Except.error (ClavisError.deserializationFailed ("String length exceeds available data"))) := by
  rw [readString, h]
  dsimp only
  constructor
  · intro hle
    rw [if_neg (by omega)]
  · intro hgt
    rw [if_pos (by omega)]

/-- C7 witness: the amended theorem instantiated at the invalid UTF-8 input
`[0xFF]` with declared length 1. -/
theorem readString_bounds_only_no_utf8_validation_witness :
    readU64 [1, 0, 0, 0, 0, 0, 0, 0, 255] 0 = Except.ok ⟨1, 8⟩ ∧
    ((0 + 8 + 1 ≤ ([1, 0, 0, 0, 0, 0, 0, 0, 255] : List Nat).length →
       readString [1, 0, 0, 0, 0, 0, 0, 0, 255] 0 =
         Except.ok ⟨textDecode ((([1, 0, 0, 0, 0, 0, 0, 0, 255] : List Nat).drop (0 + 8)).take 1), 8 + 1⟩) ∧
     (([1, 0, 0, 0, 0, 0, 0, 0, 255] : List Nat).length < 0 + 8 + 1 →
       readString [1, 0, 0, 0, 0, 0, 0, 0, 255] 0 =
         Except.error (ClavisError.deserializationFailed ("String length exceeds available data")))) :=
  ⟨rfl, readString_bounds_only_no_utf8_validation [1, 0, 0, 0, 0, 0, 0, 0, 255] 0 1 rfl⟩

/-- C1 counterexample: with `maxPacketSize = 1` the received length 2
satisfies `1 ≤ 2 ≤ maxPacketSize + 16`, so the claim says the frame passes
the length check; the code rejects it with MessageTooLarge, because the
implemented bound is `maxPacketSize`, not `maxPacketSize + 16`. -/
theorem readPacket_rejects_len_within_plus16 :
    readPacket (fun _ ciphertext => Except.ok ciphertext) 1
        ([2, 0, 0, 0] ++ List.replicate 24 7 ++ [9, 9]) =
      Except.error (ClavisError.message (MessageError.messageTooLarge 2 1)) ∧
    (1 : Nat) ≤ 2 ∧ (2 : Nat) ≤ 1 + 16 :=
  ⟨rfl, by norm_num, by norm_num⟩

/-- C1 (amended): `readPacket` rejects a received frame with MessageTooLarge
exactly when the u32 LE length prefix is 0 or exceeds `maxPacketSize` (NOT
`maxPacketSize + 16`); every frame whose length satisfies
`1 ≤ len ≤ maxPacketSize` passes the length check and proceeds to read the
24-byte nonce and the ciphertext. -/
theorem readPacket_length_check_bound
    (decrypt : List Nat → List Nat → Except ClavisError (List Nat))
    (maxPacketSize length : Nat) (rest : List Nat) (h32 : length < 4294967296) :
    ((length = 0 ∨ maxPacketSize < length) →
       readPacket decrypt maxPacketSize (u32leBytes length ++ rest) =
         Except.error (ClavisError.message (MessageError.messageTooLarge length maxPacketSize))) ∧
    (1 ≤ length → length ≤ maxPacketSize →
       readPacket decrypt maxPacketSize (u32leBytes length ++ rest) =
         readPacketTail decrypt length rest) := by
  rw [readPacket, adapterReadU32LE_u32leBytes length rest h32]
  dsimp only
  constructor
  · intro hcase
    rw [if_pos (by omega)]
  · intro h1 h2
    rw [if_neg (by omega)]

/-- C1 witness: the amended theorem instantiated at length 2 against
`maxPacketSize = 1` (rejected) and `maxPacketSize = 17` (passes on). -/
theorem readPacket_length_check_bound_witness :
    (2 : Nat) < 4294967296 ∧
    readPacket (fun _ ciphertext => Except.ok ciphertext) 1
        (u32leBytes 2 ++ (List.replicate 24 7 ++ [9, 9])) =
      Except.error (ClavisError.message (MessageError.messageTooLarge 2 1)) ∧
    readPacket (fun _ ciphertext => Except.ok ciphertext) 17
        (u32leBytes 2 ++ (List.replicate 24 7 ++ [9, 9])) =
      readPacketTail (fun _ ciphertext => Except.ok ciphertext) 2
        (List.replicate 24 7 ++ [9, 9]) :=
  ⟨by norm_num,
   (readPacket_length_check_bound (fun _ ciphertext => Except.ok ciphertext) 1 2
     (List.replicate 24 7 ++ [9, 9]) (by norm_num)).1 (Or.inr (by norm_num)),
   (readPacket_length_check_bound (fun _ ciphertext => Except.ok ciphertext) 17 2
     (List.replicate 24 7 ++ [9, 9]) (by norm_num)).2 (by norm_num) (by norm_num)⟩

/-- C2: with the same shared secret and transcript hash (both 32 bytes, as
produced by ECDH and SHA-256), the peer that resolved to Initiator returns
`encKey = HKDF(sharedSecret, transcriptHash, "enc")` and
`decKey = HKDF(..., "dec")`, the peer that resolved to Responder returns the
swap, and hence the initiator encKey equals the responder decKey and vice
versa — for every implementation of the external HKDF. -/
theorem handshake_directional_keys_swap (prims : CryptoPrimitives)
    (sharedSecret transcriptHash : List Nat)
    (hss : sharedSecret.length = 32) (hth : transcriptHash.length = 32) :
    initiatorDeriveKeys prims sharedSecret transcriptHash =
      Except.ok ⟨prims.hkdf sharedSecret transcriptHash ("enc"),
                 prims.hkdf sharedSecret transcriptHash ("dec")⟩ ∧
    responderDeriveKeys prims sharedSecret transcriptHash =
      Except.ok ⟨prims.hkdf sharedSecret transcriptHash ("dec"),
                 prims.hkdf sharedSecret transcriptHash ("enc")⟩ ∧
    (∀ kA kB, initiatorDeriveKeys prims sharedSecret transcriptHash = Except.ok kA →
       responderDeriveKeys prims sharedSecret transcriptHash = Except.ok kB →
       kA.encKey = kB.decKey ∧ kA.decKey = kB.encKey) := by
  have hk : ∀ info : String, hkdfExpand prims sharedSecret transcriptHash info =
      Except.ok (prims.hkdf sharedSecret transcriptHash info) := by
    intro info
    rw [hkdfExpand, if_neg (by omega), if_neg (by omega)]
  have hinit : initiatorDeriveKeys prims sharedSecret transcriptHash =
      Except.ok ⟨prims.hkdf sharedSecret transcriptHash ("enc"),
                 prims.hkdf sharedSecret transcriptHash ("dec")⟩ := by
    rw [initiatorDeriveKeys, hk ("enc"), hk ("dec")]
  have hresp : responderDeriveKeys prims sharedSecret transcriptHash =
      Except.ok ⟨prims.hkdf sharedSecret transcriptHash ("dec"),
                 prims.hkdf sharedSecret transcriptHash ("enc")⟩ := by
    rw [responderDeriveKeys, hk ("enc"), hk ("dec")]
  refine ⟨hinit, hresp, fun kA kB hA hB => ?_⟩
  rw [hinit] at hA
  rw [hresp] at hB
  cases hA
  cases hB
  exact ⟨rfl, rfl⟩

/-- C2 witness: the theorem instantiated at concrete 32-byte inputs and a
concrete (constant) HKDF implementation. -/
theorem handshake_directional_keys_swap_witness :
    (List.replicate 32 0 : List Nat).length = 32 ∧
    (List.replicate 32 1 : List Nat).length = 32 ∧
    (initiatorDeriveKeys ⟨fun _ _ => [], fun _ => [], fun _ _ => [], fun _ _ _ => [5]⟩
        (List.replicate 32 0) (List.replicate 32 1) = Except.ok ⟨[5], [5]⟩ ∧
     responderDeriveKeys ⟨fun _ _ => [], fun _ => [], fun _ _ => [], fun _ _ _ => [5]⟩
        (List.replicate 32 0) (List.replicate 32 1) = Except.ok ⟨[5], [5]⟩ ∧
     (∀ kA kB, initiatorDeriveKeys ⟨fun _ _ => [], fun _ => [], fun _ _ => [], fun _ _ _ => [5]⟩
         (List.replicate 32 0) (List.replicate 32 1) = Except.ok kA →
       responderDeriveKeys ⟨fun _ _ => [], fun _ => [], fun _ _ => [], fun _ _ _ => [5]⟩
         (List.replicate 32 0) (List.replicate 32 1) = Except.ok kB →
       kA.encKey = kB.decKey ∧ kA.decKey = kB.encKey)) :=
  ⟨by simp, by simp,
   handshake_directional_keys_swap ⟨fun _ _ => [], fun _ => [], fun _ _ => [], fun _ _ _ => [5]⟩
     (List.replicate 32 0) (List.replicate 32 1) (by simp) (by simp)⟩

/-- C3: `compareNonces` decides the role by lexicographic byte comparison of
the two 32-byte nonces: if the first differing index has the local byte
greater the result is true (Initiator), if smaller the result is false
(Responder), equal nonces give false (Responder), and any two distinct
nonces give the two peers complementary roles. -/
theorem compareNonces_role_resolution (a b : List Nat)
    (ha : a.length = 32) (hb : b.length = 32) :
    (∀ j, j < 32 → (∀ k, k < j → a.getD k 0 = b.getD k 0) → b.getD j 0 < a.getD j 0 →
       compareNonces a b = Except.ok true) ∧
    (∀ j, j < 32 → (∀ k, k < j → a.getD k 0 = b.getD k 0) → a.getD j 0 < b.getD j 0 →
       compareNonces a b = Except.ok false) ∧
    (a = b → compareNonces a b = Except.ok false) ∧
    (a ≠ b → ∃ r, compareNonces a b = Except.ok r ∧ compareNonces b a = Except.ok (!r)) := by
  have hok : ∀ x y : List Nat, x.length = 32 → y.length = 32 →
      compareNonces x y = Except.ok (compareNoncesLoop x y 0) := by
    intro x y hx hy
    rw [compareNonces, if_neg (by omega)]
  refine ⟨?_, ?_, ?_, ?_⟩
  · intro j hj hpre hgt
    rw [hok a b ha hb,
      compareNoncesLoop_gt a b j hj hgt 0 (by omega) (fun k hk1 hk2 => hpre k hk2)]
  · intro j hj hpre hlt
    rw [hok a b ha hb,
      compareNoncesLoop_lt a b j hj hlt 0 (by omega) (fun k hk1 hk2 => hpre k hk2)]
  · intro heq
    subst heq
    rw [hok a a ha ha, compareNoncesLoop_self a a (fun _ _ => rfl) 0]
  · intro hne
    obtain ⟨j, hj, hd⟩ := length32_ne_exists_diff a b ha hb hne
    exact ⟨compareNoncesLoop a b 0, hok a b ha hb,
      by rw [hok b a hb ha, compareNoncesLoop_swap a b j hj hd 0 (by omega)]⟩

/-- C3 witness: the theorem instantiated at two concrete distinct nonces
differing at index 0. -/
theorem compareNonces_role_resolution_witness :
    compareNonces (1 :: List.replicate 31 0) (List.replicate 32 0) = Except.ok true :=
  (compareNonces_role_resolution (1 :: List.replicate 31 0) (List.replicate 32 0)
      (by simp) (by simp)).1 0 (by norm_num)
    (fun k hk => absurd hk (Nat.not_lt_zero k)) (by decide)

/-- C8: calling `performHandshake` with a PSK shorter than 16 bytes fails
with InvalidKeyMaterial and the returned stream state is exactly the input
state: no bytes were written, in particular the local 32-byte nonce was
never sent, and nothing was read. -/
theorem performHandshake_short_psk_fails_before_write
    (prims : CryptoPrimitives) (localNonce : List Nat) (keyPair : X25519KeyPair)
    (p : List Nat) (s : StreamModel) (h : p.length < 16) :
    performHandshake prims localNonce keyPair (some p) s =
      (Except.error (ClavisError.crypto
        (CryptoError.invalidKeyMaterial ("Pre-shared key must be at least 16 bytes"))), s) := by
  rw [performHandshake]
  rw [if_pos h]

/-- C8 witness: the theorem instantiated at a 1-byte PSK. -/
theorem performHandshake_short_psk_fails_before_write_witness :
    ([1] : List Nat).length < 16 ∧
    performHandshake ⟨fun _ _ => [], fun _ => [], fun _ _ => [], fun _ _ _ => []⟩
        (List.replicate 32 0) ⟨List.replicate 32 2, List.replicate 32 3⟩ (some [1])
        ⟨[], []⟩ =
      (Except.error (ClavisError.crypto
        (CryptoError.invalidKeyMaterial ("Pre-shared key must be at least 16 bytes"))),
       ⟨[], []⟩) :=
  ⟨by norm_num,
   performHandshake_short_psk_fails_before_write
     ⟨fun _ _ => [], fun _ => [], fun _ _ => [], fun _ _ _ => []⟩
     (List.replicate 32 0) ⟨List.replicate 32 2, List.replicate 32 3⟩ [1]
     ⟨[], []⟩ (by norm_num)⟩

/-- C9: `writePacket` accepts a serialized plaintext of exactly
`maxPacketSize` bytes and writes the frame (length prefix, nonce,
ciphertext); a plaintext of `maxPacketSize + 1` bytes fails with
MessageTooLarge and the returned stream state is exactly the input state, so
no bytes were written. -/
theorem writePacket_boundary (encrypt : List Nat → List Nat → List Nat)
    (maxPacketSize : Nat) (plaintext nonce : List Nat) (s : StreamModel) :
    (plaintext.length = maxPacketSize →
       writePacket encrypt maxPacketSize plaintext nonce s =
         (Except.ok (), streamWrite (streamWrite (streamWrite s
            (u32leBytes (encrypt nonce plaintext).length)) nonce) (encrypt nonce plaintext))) ∧
    (plaintext.length = maxPacketSize + 1 →
       writePacket encrypt maxPacketSize plaintext nonce s =
         (Except.error (ClavisError.message
           (MessageError.messageTooLarge (maxPacketSize + 1) maxPacketSize)), s)) := by
  constructor
  · intro hlen
    rw [writePacket, if_neg (by omega)]
  · intro hlen
    rw [writePacket, if_pos (by omega), hlen]

/-- C9 witness: the theorem instantiated with `maxPacketSize = 4`, an
appending cipher, and plaintexts of 4 and 5 bytes. -/
theorem writePacket_boundary_witness :
    writePacket (fun _ p => p ++ List.replicate 16 0) 4 [1, 2, 3, 4] [7] ⟨[], []⟩ =
      (Except.ok (), ⟨[], [[20, 0, 0, 0], [7],
        [1, 2, 3, 4, 0, 0, 0, 0, 0, 0, 0, 0, 0, 0, 0, 0, 0, 0, 0, 0]]⟩) ∧
    writePacket (fun _ p => p ++ List.replicate 16 0) 4 [1, 2, 3, 4, 5] [7] ⟨[], []⟩ =
      (Except.error (ClavisError.message (MessageError.messageTooLarge 5 4)), ⟨[], []⟩) :=
  ⟨(writePacket_boundary (fun _ p => p ++ List.replicate 16 0) 4 [1, 2, 3, 4] [7]
      ⟨[], []⟩).1 rfl,
   (writePacket_boundary (fun _ p => p ++ List.replicate 16 0) 4 [1, 2, 3, 4, 5] [7]
      ⟨[], []⟩).2 rfl⟩

/-- C10: for every plaintext with
`maxPacketSize - 16 < plaintext.length ≤ maxPacketSize` (with the AEAD
adding a 16-byte tag, so the ciphertext length is `plaintext.length + 16`),
`writePacket` accepts the plaintext and emits a frame whose length prefix is
`plaintext.length + 16 > maxPacketSize`; a peer `readPacket` configured with
the SAME `maxPacketSize` then rejects that frame with MessageTooLarge, so
plaintexts in the top 16 bytes of the allowed write range can never be
received by an identically configured peer. -/
theorem writePacket_top_range_unreadable_by_peer
    (encrypt : List Nat → List Nat → List Nat)
    (decrypt : List Nat → List Nat → Except ClavisError (List Nat))
    (maxPacketSize : Nat) (plaintext nonce : List Nat) (s : StreamModel) (rest : List Nat)
    (hEnc : (encrypt nonce plaintext).length = plaintext.length + 16)
    (hlo : maxPacketSize < plaintext.length + 16)
    (hhi : plaintext.length ≤ maxPacketSize)
    (h32 : plaintext.length + 16 < 4294967296) :
    writePacket encrypt maxPacketSize plaintext nonce s =
      (Except.ok (), streamWrite (streamWrite (streamWrite s
         (u32leBytes (plaintext.length + 16))) nonce) (encrypt nonce plaintext)) ∧
    maxPacketSize < plaintext.length + 16 ∧
    readPacket decrypt maxPacketSize (u32leBytes (plaintext.length + 16) ++ rest) =
      Except.error (ClavisError.message
        (MessageError.messageTooLarge (plaintext.length + 16) maxPacketSize)) := by
  refine ⟨?_, hlo, ?_⟩
  · rw [writePacket, if_neg (by omega)]
    dsimp only
    rw [hEnc]
  · rw [readPacket, adapterReadU32LE_u32leBytes (plaintext.length + 16) rest h32]
    dsimp only
    rw [if_pos (by omega)]

/-- C10 witness: `maxPacketSize = 20` and a 10-byte plaintext, whose 26-byte
frame the identically configured reader rejects. -/
theorem writePacket_top_range_unreadable_by_peer_witness :
    ((fun _ p => p ++ List.replicate 16 0) ([7] : List Nat)
        (List.replicate 10 1) : List Nat).length = (List.replicate 10 1 : List Nat).length + 16 ∧
    (20 : Nat) < (List.replicate 10 1 : List Nat).length + 16 ∧
    (List.replicate 10 1 : List Nat).length ≤ 20 ∧
    (List.replicate 10 1 : List Nat).length + 16 < 4294967296 ∧
    (writePacket (fun _ p => p ++ List.replicate 16 0) 20 (List.replicate 10 1) [7] ⟨[], []⟩ =
      (Except.ok (), streamWrite (streamWrite (streamWrite ⟨[], []⟩
         (u32leBytes ((List.replicate 10 1 : List Nat).length + 16))) [7])
         ((fun _ p => p ++ List.replicate 16 0) ([7] : List Nat) (List.replicate 10 1))) ∧
     (20 : Nat) < (List.replicate 10 1 : List Nat).length + 16 ∧
     readPacket (fun _ c => Except.ok c) 20
         (u32leBytes ((List.replicate 10 1 : List Nat).length + 16) ++ []) =
       Except.error (ClavisError.message
         (MessageError.messageTooLarge ((List.replicate 10 1 : List Nat).length + 16) 20))) :=
  ⟨by simp, by simp, by simp, by simp,
   writePacket_top_range_unreadable_by_peer (fun _ p => p ++ List.replicate 16 0)
     (fun _ c => Except.ok c) 20 (List.replicate 10 1) [7] ⟨[], []⟩ []
     (by simp) (by simp) (by simp) (by simp)⟩

end Clavis
